import Mathlib

/-!
# Verification of the AICodeAnalyzer request-analysis pipeline

Shallow embedding of the server core of the AICodeAnalyzer repository:
the line counter, the response normalizers (the regex variant of
`src/server/routes.ts` and the JSON variant of `src/unnamed/part_001`),
the in-memory storage (`src/server/storage.ts`), and the
`POST /api/analyze` orchestration (the route variant embedded in
`src/server/storage.ts`, which carries the rate gate and the cache check).

JavaScript strings are modelled as Lean `String`; machine time
(`Date.now()`) as `Int` milliseconds; the external model call as an
explicit function argument producing either a raw text or an error
message (the two ways the awaited call can resolve).
-/

/-! ## Small JavaScript string primitives -/

/-- The ASCII part of the JavaScript `\s` character class (whitespace). -/
def isJsWS (c : Char) : Bool :=
  c == ' ' || c == '\t' || c == '\n' || c == '\r' || c == '\x0b' || c == '\x0c'

/-- JavaScript regexp line terminators (ASCII part): `\n` and `\r`. -/
def isLineTerm (c : Char) : Bool :=
  c == '\n' || c == '\r'

/-- `String.prototype.trim()`: drop leading and trailing whitespace. -/
def jsTrim (s : String) : String :=
  String.mk (((s.data.dropWhile isJsWS).reverse.dropWhile isJsWS).reverse)

/-- `String.prototype.startsWith(pre)`. -/
def startsWithStr (s pre : String) : Bool :=
  pre.data.isPrefixOf s.data

/-- Case-insensitive literal match at the head of a character list.
The pattern is given in lower case, as in a regexp with the `i` flag. -/
def ciStarts : List Char → List Char → Bool
  | [], _ => true
  | _ :: _, [] => false
  | p :: ps, c :: cs => p == c.toLower && ciStarts ps cs

/-- Does `sub` occur in `s`? (`String.prototype.includes`). -/
def containsSubAux (pat : List Char) : List Char → Bool
  | [] => pat.isPrefixOf []
  | c :: cs => pat.isPrefixOf (c :: cs) || containsSubAux pat cs

/-- `s.includes(sub)` of JavaScript. -/
def containsSub (s sub : String) : Bool :=
  containsSubAux sub.data s.data

/-- `code.split("\n")` of JavaScript: split on every newline, keeping
empty segments, with one extra segment after a trailing separator. -/
def splitLinesAux : List Char → List Char → List String
  | [], acc => [String.mk acc.reverse]
  | '\n' :: cs, acc => String.mk acc.reverse :: splitLinesAux cs []
  | c :: cs, acc => splitLinesAux cs (c :: acc)

/-- Split a source text into its lines, as `code.split("\n")` does. -/
def splitLines (code : String) : List String :=
  splitLinesAux code.data []

/-! ## Line Counter (`src/server/routes.ts`, `src/server/storage.ts`) -/

/-- The filter of the line counter: a line is kept iff after trimming it
is non-empty and does not start with `//`, `#`, `/*`, `*` or `*/`. -/
def isMeaningful (line : String) : Bool :=
  let trimmed := jsTrim line
  !(trimmed.data.isEmpty) &&
    !(startsWithStr trimmed "//") &&
    !(startsWithStr trimmed "#") &&
    !(startsWithStr trimmed "/*") &&
    !(startsWithStr trimmed "*") &&
    !(startsWithStr trimmed "*/")

/-- `linesOfCode`: the number of meaningful lines of the submitted code. -/
def countLinesOfCode (code : String) : Nat :=
  ((splitLines code).filter isMeaningful).length

/-! ## Regular-expression extraction of the Response Normalizer

The route matches `/Time Complexity:\s*(O\([^)]+\))/i`,
`/Space Complexity:\s*(O\([^)]+\))/i` and `/Explanation:\s*(.+)/i`
against the raw model text and takes the first capture group of the
first match. The scan below tries the pattern at each position from
the left, exactly as the JavaScript engine does. -/

/-- Lower-case label of the time-complexity pattern. -/
def timeLabel : List Char := "time complexity:".data

/-- Lower-case label of the space-complexity pattern. -/
def spaceLabel : List Char := "space complexity:".data

/-- Lower-case label of the explanation pattern. -/
def explLabel : List Char := "explanation:".data

/-- Try `label` then `\s*` then `O\([^)]+\)` at the current position;
the capture keeps the original characters. `[^)]+` is greedy and can
never consume a `)`, so no backtracking arises. -/
def matchBigOAt (label : List Char) (cs : List Char) : Option String :=
  if ciStarts label cs then
    match (cs.drop label.length).dropWhile isJsWS with
    | o :: '(' :: rest =>
      if o.toLower == 'o' then
        let inner := rest.takeWhile (fun c => c != ')')
        if inner.isEmpty then none
        else
          match rest.drop inner.length with
          | ')' :: _ => some (String.mk (o :: '(' :: (inner ++ [')'])))
          | _ => none
      else none
    | _ => none
  else none

/-- First match of a complexity pattern, scanning left to right. -/
def scanBigO (label : List Char) : List Char → Option String
  | [] => none
  | c :: cs =>
    match matchBigOAt label (c :: cs) with
    | some cap => some cap
    | none => scanBigO label cs

/-- Index of the last whitespace character that is not a line
terminator, used for the backtracking of `\s*` before `(.+)`. -/
def lastSoftWsIdx : List Char → Option Nat
  | [] => none
  | c :: cs =>
    match lastSoftWsIdx cs with
    | some k => some (k + 1)
    | none => if isLineTerm c then none else some 0

/-- Try `explanation:` then `\s*(.+)` at the current position. `\s*` is
greedy; if nothing remains for `.+` it backtracks to the last matched
whitespace character that `.` (which excludes line terminators) can
still consume. The capture runs to the end of the line. -/
def matchExplAt (cs : List Char) : Option String :=
  if ciStarts explLabel cs then
    let r := cs.drop explLabel.length
    let w := r.takeWhile isJsWS
    match r.drop w.length with
    | c :: rest => some (String.mk ((c :: rest).takeWhile (fun ch => !isLineTerm ch)))
    | [] =>
      match lastSoftWsIdx w with
      | some k => some (String.mk ((r.drop k).takeWhile (fun ch => !isLineTerm ch)))
      | none => none
  else none

/-- First match of the explanation pattern, scanning left to right. -/
def scanExpl : List Char → Option String
  | [] => none
  | c :: cs =>
    match matchExplAt (c :: cs) with
    | some cap => some cap
    | none => scanExpl cs

/-- The regex-variant Response Normalizer of `src/server/routes.ts` and
of the route embedded in `src/server/storage.ts`: each unresolved field
falls back to a fixed literal, and the captured explanation is trimmed. -/
def normalizeRegex (text : String) : String × String × String :=
  ((scanBigO timeLabel text.data).getD "O(?)",
   (scanBigO spaceLabel text.data).getD "O(?)",
   ((scanExpl text.data).map jsTrim).getD "Analysis completed using AI.")

/-! ## JSON values and `JSON.parse` (for the `src/unnamed/part_001` normalizer) -/

/-- JSON values as produced by `JSON.parse`. Numbers keep their source
lexeme; the numeric value never matters to the normalizer. -/
inductive JVal where
  | null : JVal
  | bool : Bool → JVal
  | num : String → JVal
  | str : String → JVal
  | arr : List JVal → JVal
  | obj : List (String × JVal) → JVal

/-- JSON insignificant whitespace. -/
def skipJsonWs (cs : List Char) : List Char :=
  cs.dropWhile (fun c => c == ' ' || c == '\t' || c == '\n' || c == '\r')

/-- Value of one hexadecimal digit, if any. -/
def hexVal (c : Char) : Option Nat :=
  let n := c.toNat
  if 48 ≤ n && n ≤ 57 then some (n - 48)
  else if 97 ≤ n && n ≤ 102 then some (n - 87)
  else if 65 ≤ n && n ≤ 70 then some (n - 55)
  else none

/-- Body of a JSON string after the opening quote, with escapes. -/
def parseStringBody : List Char → List Char → Option (String × List Char)
  | [], _ => none
  | '\\' :: e :: rest, acc =>
    match e with
    | '"' => parseStringBody rest ('"' :: acc)
    | '\\' => parseStringBody rest ('\\' :: acc)
    | '/' => parseStringBody rest ('/' :: acc)
    | 'b' => parseStringBody rest ('\x08' :: acc)
    | 'f' => parseStringBody rest ('\x0c' :: acc)
    | 'n' => parseStringBody rest ('\n' :: acc)
    | 'r' => parseStringBody rest ('\r' :: acc)
    | 't' => parseStringBody rest ('\t' :: acc)
    | 'u' =>
      match rest with
      | h1 :: h2 :: h3 :: h4 :: rest2 =>
        match hexVal h1, hexVal h2, hexVal h3, hexVal h4 with
        | some a, some b, some c, some d =>
          parseStringBody rest2 (Char.ofNat (((a * 16 + b) * 16 + c) * 16 + d) :: acc)
        | _, _, _, _ => none
      | _ => none
    | _ => none
  | '"' :: rest, acc => some (String.mk acc.reverse, rest)
  | c :: rest, acc => if c.toNat < 32 then none else parseStringBody rest (c :: acc)

/-- Optional fraction part of a JSON number (`.` needs at least one digit). -/
def parseFracPart (cs : List Char) : Option (List Char × List Char) :=
  match cs with
  | '.' :: r =>
    let ds := r.takeWhile Char.isDigit
    if ds.isEmpty then none else some ('.' :: ds, r.drop ds.length)
  | _ => some ([], cs)

/-- Optional exponent part of a JSON number. -/
def parseExpPart (cs : List Char) : Option (List Char × List Char) :=
  match cs with
  | e :: rest =>
    if e == 'e' || e == 'E' then
      let (sg, r2) :=
        match rest with
        | '+' :: r => (['+'], r)
        | '-' :: r => (['-'], r)
        | _ => (([] : List Char), rest)
      let ds := r2.takeWhile Char.isDigit
      if ds.isEmpty then none else some (e :: (sg ++ ds), r2.drop ds.length)
    else some ([], cs)
  | [] => some ([], [])

/-- A JSON number starting at the current character (`-?(0|[1-9][0-9]*)`
followed by optional fraction and exponent). -/
def parseNumberFrom (cs : List Char) : Option (JVal × List Char) :=
  let (sgn, cs1) :=
    match cs with
    | '-' :: r => ((['-'] : List Char), r)
    | _ => (([] : List Char), cs)
  match cs1 with
  | c :: r =>
    if c == '0' || c.isDigit then
      let intDigits := if c == '0' then [c] else c :: r.takeWhile Char.isDigit
      let afterInt := if c == '0' then r else r.drop (r.takeWhile Char.isDigit).length
      match parseFracPart afterInt with
      | none => none
      | some (fr, r2) =>
        match parseExpPart r2 with
        | none => none
        | some (ex, r3) => some (.num (String.mk (sgn ++ intDigits ++ fr ++ ex)), r3)
    else none
  | [] => none

mutual

/-- A JSON value, fuelled recursive descent. -/
def parseJsonValue : Nat → List Char → Option (JVal × List Char)
  | 0, _ => none
  | fuel + 1, cs =>
    match skipJsonWs cs with
    | 'n' :: 'u' :: 'l' :: 'l' :: rest => some (.null, rest)
    | 't' :: 'r' :: 'u' :: 'e' :: rest => some (.bool true, rest)
    | 'f' :: 'a' :: 'l' :: 's' :: 'e' :: rest => some (.bool false, rest)
    | '"' :: rest =>
      match parseStringBody rest [] with
      | some (s, r) => some (.str s, r)
      | none => none
    | '[' :: rest =>
      (match skipJsonWs rest with
       | ']' :: r2 => some (.arr [], r2)
       | other => parseJsonElems fuel other [])
    | '{' :: rest =>
      (match skipJsonWs rest with
       | '}' :: r2 => some (.obj [], r2)
       | other => parseJsonMembers fuel other [])
    | c :: rest => if c == '-' || c.isDigit then parseNumberFrom (c :: rest) else none
    | [] => none

/-- Comma-separated array elements up to the closing bracket. -/
def parseJsonElems : Nat → List Char → List JVal → Option (JVal × List Char)
  | 0, _, _ => none
  | fuel + 1, cs, acc =>
    match parseJsonValue fuel cs with
    | none => none
    | some (v, r) =>
      match skipJsonWs r with
      | ',' :: r2 => parseJsonElems fuel r2 (v :: acc)
      | ']' :: r2 => some (.arr (v :: acc).reverse, r2)
      | _ => none

/-- Comma-separated object members up to the closing brace. -/
def parseJsonMembers : Nat → List Char → List (String × JVal) → Option (JVal × List Char)
  | 0, _, _ => none
  | fuel + 1, cs, acc =>
    match skipJsonWs cs with
    | '"' :: rest =>
      (match parseStringBody rest [] with
       | none => none
       | some (k, r) =>
         match skipJsonWs r with
         | ':' :: r2 =>
           (match parseJsonValue fuel r2 with
            | none => none
            | some (v, r3) =>
              match skipJsonWs r3 with
              | ',' :: r4 => parseJsonMembers fuel r4 ((k, v) :: acc)
              | '}' :: r4 => some (.obj ((k, v) :: acc).reverse, r4)
              | _ => none)
         | _ => none)
    | _ => none

end

/-- `JSON.parse`: one value, then only trailing whitespace. `none`
models a thrown `SyntaxError`. -/
def jsonParse (s : String) : Option JVal :=
  match parseJsonValue (2 * s.data.length + 2) s.data with
  | some (v, rest) => if (skipJsonWs rest).isEmpty then some v else none
  | none => none

/-! ## The JSON-variant Response Normalizer (`src/unnamed/part_001`) -/

/-- The seven-character fence marker alternative of the replace regexp. -/
def fenceJson : List Char := "```json".data

/-- The three-character fence marker alternative of the replace regexp. -/
def fencePlain : List Char := "```".data

/-- `text.replace(/```json|```/g, "")`: leftmost-first global
replacement, preferring the longer alternative, resuming after each
match. Fuelled to stay structurally recursive; one unit of fuel per
character suffices. -/
def stripFencesAux : Nat → List Char → List Char
  | 0, cs => cs
  | _ + 1, [] => []
  | fuel + 1, c :: cs =>
    if (c :: cs).take 7 = fenceJson then stripFencesAux fuel ((c :: cs).drop 7)
    else if (c :: cs).take 3 = fencePlain then stripFencesAux fuel ((c :: cs).drop 3)
    else c :: stripFencesAux fuel cs

/-- Remove every code-fence marker from the raw model text. -/
def stripFences (cs : List Char) : List Char :=
  stripFencesAux cs.length cs

/-- The cleaned text the part_001 normalizer works on:
`text.replace(/```json|```/g, "").trim()`. -/
def strippedText (raw : String) : String :=
  jsTrim (String.mk (stripFences raw.data))

/-- JavaScript property access `v[k]` on a parsed JSON value:
`undefined` (here `none`) on any non-null non-object or missing key,
and a thrown `TypeError` (here `Except.error ()`) when `v` is `null`.
A duplicate key keeps its last occurrence, as `JSON.parse` does. -/
def jGetField : JVal → String → Except Unit (Option JVal)
  | .null, _ => .error ()
  | .obj fields, k => .ok (((fields.reverse).find? (fun p => p.1 == k)).map (fun p => p.2))
  | _, _ => .ok none

/-- The JavaScript nullish coalescing `x ?? fb`. -/
def jsCoalesce (x : Option JVal) (fb : JVal) : JVal :=
  match x with
  | none => fb
  | some .null => fb
  | some v => v

/-- The JSON-variant Response Normalizer of `src/unnamed/part_001`:
strip fences and trim, `JSON.parse` with `{}` substituted on a parse
error, then read the three fields with a regex-extraction fallback and
a fixed literal as last resort. The property accesses throw (the
`Except.error` case) exactly when the parsed value is `null`. -/
def normalizeJson (raw : String) : Except Unit (JVal × JVal × JVal) :=
  let text := strippedText raw
  let parsed : JVal :=
    match jsonParse text with
    | some v => v
    | none => .obj []
  match jGetField parsed "timeComplexity" with
  | .error e => .error e
  | .ok tcField =>
    match jGetField parsed "spaceComplexity" with
    | .error e => .error e
    | .ok scField =>
      match jGetField parsed "explanation" with
      | .error e => .error e
      | .ok exField =>
        .ok (jsCoalesce tcField (.str ((scanBigO timeLabel text.data).getD "O(?)")),
             jsCoalesce scField (.str ((scanBigO spaceLabel text.data).getD "O(?)")),
             jsCoalesce exField (.str ((scanExpl text.data).getD "AI analysis unavailable")))

/-- Does the cleaned text `JSON.parse` to exactly `null`? This is the
one condition under which the part_001 normalizer throws. -/
def isJsonNull (t : String) : Bool :=
  match jsonParse t with
  | some .null => true
  | _ => false

/-! ## In-memory storage (`src/server/storage.ts`, class `MemStorage`) -/

/-- A stored analysis record. `createdAt` is the insertion-time clock in
milliseconds; `explanation` is nullable in the schema. -/
structure Analysis where
  id : Nat
  code : String
  language : String
  linesOfCode : Nat
  timeComplexity : String
  spaceComplexity : String
  explanation : Option String
  createdAt : Int
deriving DecidableEq, Repr

/-- The insert shape accepted by `createAnalysis`. -/
structure InsertAnalysis where
  code : String
  language : String
  linesOfCode : Nat
  timeComplexity : String
  spaceComplexity : String
  explanation : Option String
deriving DecidableEq, Repr

/-- `MemStorage`: a `Map` from id to record (kept here as the list of
records in insertion order, which is how `Map.values()` iterates) and
the next id, starting at 1. -/
structure MemStorage where
  analyses : List Analysis
  currentId : Nat
deriving DecidableEq, Repr

/-- The freshly constructed storage. -/
def MemStorage.empty : MemStorage := { analyses := [], currentId := 1 }

/-- `createAnalysis`: take the next id, stamp the current time, and map
a falsy (absent or empty) explanation to null, keeping all other fields
as given. The wall clock is passed explicitly. -/
def MemStorage.createAnalysis (s : MemStorage) (ins : InsertAnalysis) (now : Int) :
    Analysis × MemStorage :=
  let a : Analysis :=
    { id := s.currentId
      code := ins.code
      language := ins.language
      linesOfCode := ins.linesOfCode
      timeComplexity := ins.timeComplexity
      spaceComplexity := ins.spaceComplexity
      explanation :=
        match ins.explanation with
        | none => none
        | some e => if e = "" then none else some e
      createdAt := now }
  (a, { analyses := s.analyses ++ [a], currentId := s.currentId + 1 })

/-- `getAnalysis(id)`: lookup in the map. -/
def MemStorage.getAnalysis (s : MemStorage) (id : Nat) : Option Analysis :=
  s.analyses.find? (fun a => a.id == id)

/-- The sort order of `getRecentAnalyses`: the comparator
`(a, b) => b.createdAt - a.createdAt` puts `a` no later than `b`
exactly when `b.createdAt ≤ a.createdAt` (descending by creation time,
ties kept in insertion order by sort stability). -/
def createdDesc (a b : Analysis) : Prop := b.createdAt ≤ a.createdAt

instance : DecidableRel createdDesc := fun a b =>
  inferInstanceAs (Decidable (b.createdAt ≤ a.createdAt))

instance : IsTotal Analysis createdDesc :=
  ⟨fun a b => le_total b.createdAt a.createdAt⟩

instance : IsTrans Analysis createdDesc :=
  ⟨fun _ _ _ hab hbc => le_trans hbc hab⟩

/-- `getRecentAnalyses(limit = 10)`: the stored records sorted newest
first (a stable sort, as the JavaScript runtime guarantees) and cut to
the limit. -/
def MemStorage.getRecentAnalyses (s : MemStorage) (limit : Nat := 10) : List Analysis :=
  (s.analyses.insertionSort createdDesc).take limit

/-- `MemStorage` implements only `getAnalysis`, `createAnalysis` and
`getRecentAnalyses`; there is no `findByCode` member anywhere in the
class (nor in the `IStorage` interface), so the optionally chained call
`storage.findByCode?.(code)` in the route reads an absent property:
this constant is `none`. -/
def storageFindByCode : Option (MemStorage → String → Option Analysis) := none

/-! ## The `POST /api/analyze` route (variant embedded in `src/server/storage.ts`) -/

/-- The response projection sent back on success. -/
structure AnalysisResult where
  linesOfCode : Nat
  timeComplexity : String
  spaceComplexity : String
  explanation : Option String
deriving DecidableEq, Repr

/-- What the route sends: a 200 with a result, or a status with a
message. -/
inductive AnalyzeResponse where
  | ok : AnalysisResult → AnalyzeResponse
  | err : Nat → String → AnalyzeResponse
deriving DecidableEq, Repr

/-- The HTTP status of a response (200 on success). -/
def AnalyzeResponse.status : AnalyzeResponse → Nat
  | .ok _ => 200
  | .err s _ => s

/-- The process-wide mutable state of the server: the record store and
the rate-gate mark `lastAnalysisAt` (initially 0). -/
structure ServerState where
  storage : MemStorage
  lastAnalysisAt : Int
deriving DecidableEq, Repr

/-- The server state right after process start. -/
def initialServerState : ServerState := { storage := MemStorage.empty, lastAnalysisAt := 0 }

/-- The cooldown window of the rate gate, in milliseconds. -/
def RATE_LIMIT_MS : Int := 3000

/-- Modelled from the spec: `analyzeCodeSchema` lives in
`@shared/schema`, which is not part of the given sources; per the spec
an AnalysisRequest requires a non-empty `code` and a non-empty
`language` and parsing rejects the body with a validation error (a
thrown `ZodError`) otherwise. The error message carried by the throw is
the zod default for a minimum-length violation; it is only ever
inspected for the substrings `quota`, `rate` and `API_KEY` by the catch
blocks, and contains none of them. -/
def zodEmptyMessage : String := "String must contain at least 1 character(s)"

/-- Modelled from the spec: body validation of `POST /api/analyze`.
Succeeds with the fields unchanged; throws (the error case) on an empty
`code` or `language`. -/
def analyzeCodeSchemaParse (code language : String) : Except String (String × String) :=
  if code = "" ∨ language = "" then .error zodEmptyMessage else .ok (code, language)

/-- The catch block of the route embedded in `src/server/storage.ts`:
429 when the error message contains `quota` or `rate`, 500 otherwise. -/
def catchStorageRoute (msg : String) : Nat × String :=
  if containsSub msg "quota" || containsSub msg "rate" then
    (429, "API quota exceeded. Try again later.")
  else
    (500, "Failed to analyze code. Please try again.")

/-- The catch block of `src/server/routes.ts`: a message containing
`API_KEY` is checked first and mapped to 400, then `quota`/`rate` to
429, anything else to 500. -/
def catchRoutes (msg : String) : Nat × String :=
  if containsSub msg "API_KEY" then
    (400, "Invalid or missing Gemini API key. Please check your API key configuration.")
  else if containsSub msg "quota" || containsSub msg "rate" then
    (429, "API quota exceeded or rate limit hit. Please try again later.")
  else
    (500, "Failed to analyze code. Please check your code and try again.")

/-- The catch block of `src/unnamed/part_001` (and `part_000`): an
unconditional 500. -/
def catchPart001 (_msg : String) : Nat × String := (500, "Failed to analyze")

/-- The prompt template of the route embedded in `src/server/storage.ts`. -/
def buildPrompt (language code : String) : String :=
  "Analyze the following " ++ language ++ " code and provide:\n" ++
  "1. Time Complexity in Big-O notation\n" ++
  "2. Space Complexity in Big-O notation\n" ++
  "3. Brief explanation of the complexity analysis\n\n" ++
  "Code:\n```" ++ language ++ "\n" ++ code ++ "\n```\n\n" ++
  "Please respond in this exact format:\n" ++
  "Time Complexity: O(...)\n" ++
  "Space Complexity: O(...)\n" ++
  "Explanation: [Brief explanation]"

/-- The outcome of one request: the response sent, the server state
afterwards, and whether the external model was called. -/
structure AnalyzeOutcome where
  response : AnalyzeResponse
  state : ServerState
  modelCalled : Bool
deriving Repr

/-- Everything after the rate gate of `POST /api/analyze` (storage.ts
variant): validate, check credential, cache lookup, count lines, call
the model, normalize, persist, respond; a throw from validation or from
the model call lands in the catch block. `modelCall` stands for the
awaited `model.generateContent`: it yields the raw response text or
throws with an error message. -/
def analyzeAfterGate (st : ServerState) (now : Int) (code language : String)
    (apiKeyConfigured : Bool) (modelCall : String → Except String String) : AnalyzeOutcome :=
  match analyzeCodeSchemaParse code language with
  | .error msg =>
    { response := .err (catchStorageRoute msg).1 (catchStorageRoute msg).2
      state := st, modelCalled := false }
  | .ok (c, l) =>
    if !apiKeyConfigured then
      { response := .err 400 "Gemini API key not configured. Add GEMINI_API_KEY in .env"
        state := st, modelCalled := false }
    else
      match (match storageFindByCode with
             | some f => f st.storage c
             | none => none) with
      | some ex =>
        { response := .ok { linesOfCode := ex.linesOfCode, timeComplexity := ex.timeComplexity,
                            spaceComplexity := ex.spaceComplexity, explanation := ex.explanation }
          state := st, modelCalled := false }
      | none =>
        match modelCall (buildPrompt l c) with
        | .error e =>
          { response := .err (catchStorageRoute e).1 (catchStorageRoute e).2
            state := st, modelCalled := true }
        | .ok text =>
          { response := .ok { linesOfCode := countLinesOfCode c
                              timeComplexity := (normalizeRegex text).1
                              spaceComplexity := (normalizeRegex text).2.1
                              explanation := some (normalizeRegex text).2.2 }
            state := { st with storage :=
              (st.storage.createAnalysis
                { code := c, language := l, linesOfCode := countLinesOfCode c
                  timeComplexity := (normalizeRegex text).1
                  spaceComplexity := (normalizeRegex text).2.1
                  explanation := some (normalizeRegex text).2.2 } now).2 }
            modelCalled := true }

/-- One `POST /api/analyze` request (storage.ts variant): the rate gate
rejects with 429 when less than the cooldown window has passed since
the last accepted request, and otherwise stamps `lastAnalysisAt`
before anything else runs. -/
def analyze (st : ServerState) (now : Int) (code language : String)
    (apiKeyConfigured : Bool) (modelCall : String → Except String String) : AnalyzeOutcome :=
  if now - st.lastAnalysisAt < RATE_LIMIT_MS then
    { response := .err 429 "Please wait a moment before analyzing again."
      state := st, modelCalled := false }
  else
    analyzeAfterGate { st with lastAnalysisAt := now } now code language apiKeyConfigured modelCall

/-! ## Sanity checks on concrete inputs -/

example : countLinesOfCode "// a\n\n# b\nlet x = 1;\n  * doc\n*/" = 1 := by decide
example : countLinesOfCode "a\nb\nc" = 3 := by decide
example : countLinesOfCode "" = 0 := by decide
example :
    normalizeRegex "Time Complexity: O(n log n)\nSpace Complexity: O(n)\nExplanation: merge sort"
      = ("O(n log n)", "O(n)", "merge sort") := by decide
example : normalizeRegex "complete gibberish" = ("O(?)", "O(?)", "Analysis completed using AI.") := by
  decide
example : normalizeRegex "time complexity: o(1) and Explanation:   " = ("o(1)", "O(?)", "") := by
  decide
example : jsonParse "null" = some .null := rfl
example : jsonParse "  \x7b\"a\": [1, -2.5e3, \"x\"], \"b\": null\x7d  " =
    some (.obj [("a", .arr [.num "1", .num "-2.5e3", .str "x"]), ("b", .null)]) := rfl
example : jsonParse "complete gibberish" = none := rfl
example : jsonParse "\x7b\"a\":1" = none := rfl
example : jsonParse "01" = none := rfl
example : normalizeJson "\x7b\"timeComplexity\":\"O(n)\",\"spaceComplexity\":\"O(1)\",\"explanation\":\"linear scan\"\x7d"
    = .ok (.str "O(n)", .str "O(1)", .str "linear scan") := rfl
example : normalizeJson "```json\n\x7b\"timeComplexity\":\"O(n)\",\"spaceComplexity\":\"O(1)\",\"explanation\":\"linear scan\"\x7d\n```"
    = .ok (.str "O(n)", .str "O(1)", .str "linear scan") := rfl
example : normalizeJson "null" = .error () := rfl
example : normalizeJson "```json\nnull\n```" = .error () := rfl
example : normalizeJson "who knows" = .ok (.str "O(?)", .str "O(?)", .str "AI analysis unavailable") := rfl

/-! ## Helper lemmas on the pipeline -/

/-- Nothing after the rate gate touches the rate-gate mark. -/
theorem analyzeAfterGate_lastAnalysisAt (st : ServerState) (now : Int) (code lang : String)
    (key : Bool) (mc : String → Except String String) :
    (analyzeAfterGate st now code lang key mc).state.lastAnalysisAt = st.lastAnalysisAt := by
  unfold analyzeAfterGate
  simp only [storageFindByCode]
  split
  · rfl
  · split
    · rfl
    · split
      · rfl
      · rfl

/-- An admitted request stamps `lastAnalysisAt := now`, whatever happens
afterwards. -/
theorem analyze_lastAnalysisAt_admitted (st : ServerState) (now : Int) (code lang : String)
    (key : Bool) (mc : String → Except String String)
    (hadm : RATE_LIMIT_MS ≤ now - st.lastAnalysisAt) :
    (analyze st now code lang key mc).state.lastAnalysisAt = now := by
  unfold analyze
  rw [if_neg (not_lt.mpr hadm)]
  exact analyzeAfterGate_lastAnalysisAt _ _ _ _ _ _

/-- A request inside the cooldown window is rejected whole: a 429, no
state change, no model call. -/
theorem analyze_gate_rejected (st : ServerState) (now : Int) (code lang : String)
    (key : Bool) (mc : String → Except String String)
    (hgate : now - st.lastAnalysisAt < RATE_LIMIT_MS) :
    analyze st now code lang key mc =
      { response := .err 429 "Please wait a moment before analyzing again."
        state := st, modelCalled := false } := by
  unfold analyze
  rw [if_pos hgate]

/-- Every 200 response of the pipeline carries the line count of the
submitted code: the cache path is dead (`storageFindByCode = none`) and
the fresh path computes `countLinesOfCode code`. -/
theorem analyze_ok_linesOfCode (st : ServerState) (now : Int) (code lang : String)
    (key : Bool) (mc : String → Except String String) (r : AnalysisResult)
    (h : (analyze st now code lang key mc).response = .ok r) :
    r.linesOfCode = countLinesOfCode code := by
  unfold analyze at h
  split at h
  · exact absurd h (by simp)
  · unfold analyzeAfterGate at h
    simp only [storageFindByCode] at h
    split at h
    · exact absurd h (by simp)
    · rename_i c l heq
      have hc : c = code := by
        unfold analyzeCodeSchemaParse at heq
        split at heq
        · exact absurd heq (by simp)
        · exact (Prod.mk.injEq .. ▸ (Except.ok.injEq .. ▸ heq)).1.symm
      subst hc
      split at h
      · exact absurd h (by simp)
      · split at h
        · exact absurd h (by simp)
        · simp only [AnalyzeOutcome.mk.injEq, AnalyzeResponse.ok.injEq] at h
          rw [← h]

/-! ## Claims -/

/-- C1: the analyze pipeline is claimed to create at most one record per
exact code string, serving repeats from cache with no new model call.
The code violates this: `MemStorage` implements no `findByCode`, so the
optionally chained cache lookup always yields `undefined` and a second
identical submission (spaced past the cooldown) calls the model again
and creates a second record. -/
theorem C1_cache_never_hits :
    storageFindByCode = none ∧
    (analyze (analyze initialServerState 5000 "let x = 1" "javascript" true
        (fun _ => .ok "Time Complexity: O(n)\nSpace Complexity: O(1)\nExplanation: loop")).state
      9000 "let x = 1" "javascript" true
      (fun _ => .ok "Time Complexity: O(n)\nSpace Complexity: O(1)\nExplanation: loop")).modelCalled
      = true ∧
    (analyze (analyze initialServerState 5000 "let x = 1" "javascript" true
        (fun _ => .ok "Time Complexity: O(n)\nSpace Complexity: O(1)\nExplanation: loop")).state
      9000 "let x = 1" "javascript" true
      (fun _ => .ok "Time Complexity: O(n)\nSpace Complexity: O(1)\nExplanation: loop")).state.storage.analyses.length
      = 2 := by
  exact ⟨rfl, rfl, rfl⟩

/-- C2 counterexample: the part_001 normalizer is not total. On the raw
model text `null` (also fence-wrapped), `JSON.parse` succeeds with
`null` and the subsequent property access throws a `TypeError`. -/
theorem C2_counterexample :
    normalizeJson "null" = .error () ∧
    normalizeJson "```json\nnull\n```" = .error () := by
  exact ⟨rfl, rfl⟩

/-- C2 amended: the regex-variant normalizer is total by construction,
and the JSON-variant normalizer returns a structurally complete triple
for every raw text except exactly those whose fence-stripped trim
parses to JSON `null`, where it throws; unresolved fields receive the
fixed fallbacks. -/
theorem C2_amended :
    (∀ raw : String, isJsonNull (strippedText raw) = false →
      ∃ t s e, normalizeJson raw = .ok (t, s, e)) ∧
    (∀ raw : String, isJsonNull (strippedText raw) = true →
      normalizeJson raw = .error ()) ∧
    (∀ raw : String,
      jsonParse (strippedText raw) = none →
      scanBigO timeLabel (strippedText raw).data = none →
      scanBigO spaceLabel (strippedText raw).data = none →
      scanExpl (strippedText raw).data = none →
      normalizeJson raw = .ok (.str "O(?)", .str "O(?)", .str "AI analysis unavailable")) ∧
    (∀ text : String,
      scanBigO timeLabel text.data = none →
      scanBigO spaceLabel text.data = none →
      scanExpl text.data = none →
      normalizeRegex text = ("O(?)", "O(?)", "Analysis completed using AI.")) := by
  refine ⟨?_, ?_, ?_, ?_⟩
  · intro raw h
    unfold normalizeJson
    cases hp : jsonParse (strippedText raw) with
    | none => simp only [hp, jGetField]; exact ⟨_, _, _, rfl⟩
    | some v =>
      cases v with
      | null => simp [isJsonNull, hp] at h
      | bool b => simp only [hp, jGetField]; exact ⟨_, _, _, rfl⟩
      | num s => simp only [hp, jGetField]; exact ⟨_, _, _, rfl⟩
      | str s => simp only [hp, jGetField]; exact ⟨_, _, _, rfl⟩
      | arr xs => simp only [hp, jGetField]; exact ⟨_, _, _, rfl⟩
      | obj fs => simp only [hp, jGetField]; exact ⟨_, _, _, rfl⟩
  · intro raw h
    unfold normalizeJson
    cases hp : jsonParse (strippedText raw) with
    | none => simp [isJsonNull, hp] at h
    | some v =>
      cases v with
      | null => simp [hp, jGetField]
      | bool b => simp [isJsonNull, hp] at h
      | num s => simp [isJsonNull, hp] at h
      | str s => simp [isJsonNull, hp] at h
      | arr xs => simp [isJsonNull, hp] at h
      | obj fs => simp [isJsonNull, hp] at h
  · intro raw hp h1 h2 h3
    unfold normalizeJson
    simp [hp, jGetField, jsCoalesce, h1, h2, h3]
  · intro text h1 h2 h3
    simp [normalizeRegex, h1, h2, h3]

/-- C2 witness: unparsable gibberish is normalized to the fallback
triple without throwing. -/
theorem C2_amended_witness :
    normalizeJson "total gibberish" = .ok (.str "O(?)", .str "O(?)", .str "AI analysis unavailable") := by
  exact C2_amended.2.2.1 "total gibberish" rfl rfl rfl rfl

/-- C3: the Line Counter counts a line iff after trimming it is
non-empty and starts with none of `//`, `#`, `/*`, `*`, `*/`; an input
whose lines are all blank or comment-prefixed counts 0, and an input
whose lines are all clean counts its number of lines. -/
theorem C3_line_counter :
    (∀ line : String,
      isMeaningful line = true ↔
        ((jsTrim line).data ≠ [] ∧
         ¬ "//".data <+: (jsTrim line).data ∧
         ¬ "#".data <+: (jsTrim line).data ∧
         ¬ "/*".data <+: (jsTrim line).data ∧
         ¬ "*".data <+: (jsTrim line).data ∧
         ¬ "*/".data <+: (jsTrim line).data)) ∧
    (∀ code : String, (∀ l ∈ splitLines code, isMeaningful l = false) →
      countLinesOfCode code = 0) ∧
    (∀ code : String, (∀ l ∈ splitLines code, isMeaningful l = true) →
      countLinesOfCode code = (splitLines code).length) := by
  refine ⟨?_, ?_, ?_⟩
  · intro line
    simp [isMeaningful, startsWithStr, List.isPrefixOf_iff_prefix, List.isEmpty_iff,
      Bool.and_eq_true, Bool.not_eq_true', Bool.eq_false_iff, ne_eq, and_assoc]
  · intro code h
    have : (splitLines code).filter isMeaningful = [] := by
      rw [List.filter_eq_nil_iff]
      intro a ha
      simp [h a ha]
    simp [countLinesOfCode, this]
  · intro code h
    have : (splitLines code).filter isMeaningful = splitLines code := by
      rw [List.filter_eq_self]
      exact h
    simp [countLinesOfCode, this]

/-- C3 witness: a fully commented-or-blank input counts 0; a clean
three-line input counts 3. -/
theorem C3_line_counter_witness :
    countLinesOfCode "// a\n\n# b\n/* c\n * d\n*/ e\n   " = 0 ∧
    countLinesOfCode "a\nb\nc" = 3 := by
  constructor
  · exact C3_line_counter.2.1 _ (by decide)
  · have h := C3_line_counter.2.2 "a\nb\nc" (by decide)
    rw [h]
    decide

/-- C4 counterexample: an empty `code` is thrown by validation into the
catch block, which answers 500 (the zod message contains neither
`quota` nor `rate`), not the claimed 400; no record is created. -/
theorem C4_counterexample :
    ((analyze initialServerState 5000 "" "python" true (fun _ => .ok "x")).response.status = 500) ∧
    ¬ ((analyze initialServerState 5000 "" "python" true (fun _ => .ok "x")).response.status = 400) ∧
    ((analyze initialServerState 5000 "" "python" true (fun _ => .ok "x")).state.storage.analyses
      = []) := by
  refine ⟨rfl, by decide, rfl⟩

/-- C4 amended: a malformed body (empty `code` or empty `language`) on
an admitted request is rejected with the generic 500 of the catch
block, with a message, no record created and no model call. -/
theorem C4_amended (st : ServerState) (now : Int) (code lang : String)
    (key : Bool) (mc : String → Except String String)
    (hadm : RATE_LIMIT_MS ≤ now - st.lastAnalysisAt)
    (hbad : code = "" ∨ lang = "") :
    (analyze st now code lang key mc).response
        = .err 500 "Failed to analyze code. Please try again." ∧
    (analyze st now code lang key mc).state.storage = st.storage ∧
    (analyze st now code lang key mc).modelCalled = false := by
  unfold analyze analyzeAfterGate analyzeCodeSchemaParse
  rw [if_neg (not_lt.mpr hadm), if_pos hbad]
  exact ⟨rfl, rfl, rfl⟩

/-- C4 witness: the amended behaviour at a concrete malformed request. -/
theorem C4_amended_witness :
    (analyze initialServerState 4000 "" "go" true (fun _ => .ok "t")).response
        = .err 500 "Failed to analyze code. Please try again." := by
  exact (C4_amended initialServerState 4000 "" "go" true _ (by decide) (Or.inl rfl)).1

/-- C5: the rate gate. An admitted request stamps the mark; a second
request less than the cooldown window later is answered 429 with the
state untouched and no model call (so before validation, cache lookup
or external call); a second request at or beyond the window is admitted
(its own mark is stamped). -/
theorem C5_rate_gate (st : ServerState) (t1 t2 : Int) (c1 l1 c2 l2 : String)
    (k1 k2 : Bool) (m1 m2 : String → Except String String)
    (hadm : RATE_LIMIT_MS ≤ t1 - st.lastAnalysisAt) :
    ((analyze st t1 c1 l1 k1 m1).state.lastAnalysisAt = t1) ∧
    (t2 - t1 < RATE_LIMIT_MS →
      analyze (analyze st t1 c1 l1 k1 m1).state t2 c2 l2 k2 m2 =
        { response := .err 429 "Please wait a moment before analyzing again."
          state := (analyze st t1 c1 l1 k1 m1).state, modelCalled := false }) ∧
    (RATE_LIMIT_MS ≤ t2 - t1 →
      (analyze (analyze st t1 c1 l1 k1 m1).state t2 c2 l2 k2 m2).state.lastAnalysisAt = t2) := by
  have hmark := analyze_lastAnalysisAt_admitted st t1 c1 l1 k1 m1 hadm
  refine ⟨hmark, ?_, ?_⟩
  · intro hsoon
    apply analyze_gate_rejected
    rw [hmark]
    exact hsoon
  · intro hlate
    apply analyze_lastAnalysisAt_admitted
    rw [hmark]
    exact hlate

/-- C5 witness: from a fresh server, a request at t=5000 is admitted, a
second at t=6000 is answered 429 untouched, and a second at t=9000 is
admitted. -/
theorem C5_rate_gate_witness :
    ((analyze initialServerState 5000 "a" "js" true (fun _ => .ok "r")).state.lastAnalysisAt
      = 5000) ∧
    (analyze (analyze initialServerState 5000 "a" "js" true (fun _ => .ok "r")).state
        6000 "b" "js" true (fun _ => .ok "r") =
      { response := .err 429 "Please wait a moment before analyzing again."
        state := (analyze initialServerState 5000 "a" "js" true (fun _ => .ok "r")).state
        modelCalled := false }) ∧
    ((analyze (analyze initialServerState 5000 "a" "js" true (fun _ => .ok "r")).state
        9000 "c" "js" true (fun _ => .ok "r")).state.lastAnalysisAt = 9000) := by
  have h := C5_rate_gate initialServerState 5000 6000 "a" "js" "b" "js" true true
    (fun _ => .ok "r") (fun _ => .ok "r") (by decide)
  have h2 := C5_rate_gate initialServerState 5000 9000 "a" "js" "c" "js" true true
    (fun _ => .ok "r") (fun _ => .ok "r") (by decide)
  exact ⟨h.1, h.2.1 (by decide), h2.2.2 (by decide)⟩

/-- C6: `getRecentAnalyses` returns the stored records sorted by
`createdAt` descending, truncated to the limit (default 10); in the
three-record scenario with strictly increasing creation times the
listing is newest first. -/
theorem C6_getRecentAnalyses :
    (∀ (s : MemStorage) (limit : Nat),
        List.Sorted createdDesc (s.getRecentAnalyses limit)) ∧
    (∀ (s : MemStorage) (limit : Nat),
        (s.getRecentAnalyses limit).length = min limit s.analyses.length) ∧
    (∀ (s : MemStorage) (limit : Nat) (a : Analysis),
        a ∈ s.getRecentAnalyses limit → a ∈ s.analyses) ∧
    (∀ s : MemStorage, s.getRecentAnalyses = s.getRecentAnalyses 10) ∧
    (∀ (i1 i2 i3 : InsertAnalysis) (t1 t2 t3 : Int), t1 < t2 → t2 < t3 →
      ((((MemStorage.empty.createAnalysis i1 t1).2.createAnalysis i2 t2).2.createAnalysis i3 t3).2.getRecentAnalyses 10)
        = [(((MemStorage.empty.createAnalysis i1 t1).2.createAnalysis i2 t2).2.createAnalysis i3 t3).1,
           ((MemStorage.empty.createAnalysis i1 t1).2.createAnalysis i2 t2).1,
           (MemStorage.empty.createAnalysis i1 t1).1]) := by
  refine ⟨?_, ?_, ?_, ?_, ?_⟩
  · intro s limit
    exact (List.sorted_insertionSort createdDesc s.analyses).sublist (List.take_sublist _ _)
  · intro s limit
    simp [MemStorage.getRecentAnalyses]
  · intro s limit a h
    have h2 := List.take_subset _ _ h
    rwa [List.mem_insertionSort] at h2
  · intro s
    rfl
  · intro i1 i2 i3 t1 t2 t3 h12 h23
    have n23 : ¬ (t3 ≤ t2) := not_le.mpr h23
    have n13 : ¬ (t3 ≤ t1) := not_le.mpr (h12.trans h23)
    have n12 : ¬ (t2 ≤ t1) := not_le.mpr h12
    simp [MemStorage.getRecentAnalyses, MemStorage.createAnalysis, MemStorage.empty,
      List.insertionSort, List.orderedInsert, createdDesc, n23, n13, n12, List.take]

/-- C6 witness: three records created at times 1000, 2000, 3000 are
listed newest first. -/
theorem C6_getRecentAnalyses_witness :
    ((((MemStorage.empty.createAnalysis ⟨"a", "js", 1, "O(1)", "O(1)", some "e"⟩ 1000).2.createAnalysis
        ⟨"b", "js", 1, "O(1)", "O(1)", some "e"⟩ 2000).2.createAnalysis
        ⟨"c", "js", 1, "O(1)", "O(1)", some "e"⟩ 3000).2.getRecentAnalyses 10).map Analysis.code
      = ["c", "b", "a"] := by
  have h := C6_getRecentAnalyses.2.2.2.2 ⟨"a", "js", 1, "O(1)", "O(1)", some "e"⟩
    ⟨"b", "js", 1, "O(1)", "O(1)", some "e"⟩ ⟨"c", "js", 1, "O(1)", "O(1)", some "e"⟩
    1000 2000 3000 (by decide) (by decide)
  rw [h]
  rfl

/-- C7 counterexample: in `src/server/routes.ts` a provider error whose
message contains both `API_KEY` and `rate` is answered 400, not the
claimed 429; and the `src/unnamed/part_001` catch answers 500 even for
a pure quota message. -/
theorem C7_counterexample :
    ((catchRoutes "API_KEY invalid while checking rate").1 = 400) ∧
    ¬ ((catchRoutes "API_KEY invalid while checking rate").1 = 429) ∧
    (containsSub "API_KEY invalid while checking rate" "rate" = true) ∧
    ((catchPart001 "quota exceeded").1 = 500) := by
  refine ⟨rfl, by decide, rfl, rfl⟩

/-- C7 amended: in the storage.ts route (the pipeline modelled here) a
provider failure whose message contains `quota` or `rate` is answered
429 and every other one 500; the routes.ts catch first answers 400 for
messages containing `API_KEY` and otherwise agrees; the part_001 and
part_000 catch answers 500 unconditionally. -/
theorem C7_amended :
    (∀ msg, (containsSub msg "quota" || containsSub msg "rate") = true →
        (catchStorageRoute msg).1 = 429) ∧
    (∀ msg, (containsSub msg "quota" || containsSub msg "rate") = false →
        (catchStorageRoute msg).1 = 500) ∧
    (∀ msg, containsSub msg "API_KEY" = true → (catchRoutes msg).1 = 400) ∧
    (∀ msg, containsSub msg "API_KEY" = false →
        (catchRoutes msg).1 = (catchStorageRoute msg).1) ∧
    (∀ msg, (catchPart001 msg).1 = 500) ∧
    (∀ (st : ServerState) (now : Int) (code lang : String)
        (mc : String → Except String String) (e : String),
      RATE_LIMIT_MS ≤ now - st.lastAnalysisAt →
      ¬ (code = "" ∨ lang = "") →
      mc (buildPrompt lang code) = .error e →
      (analyze st now code lang true mc).response
        = .err (catchStorageRoute e).1 (catchStorageRoute e).2) := by
  refine ⟨?_, ?_, ?_, ?_, ?_, ?_⟩
  · intro msg h
    simp [catchStorageRoute, h]
  · intro msg h
    simp [catchStorageRoute, h]
  · intro msg h
    simp [catchRoutes, h]
  · intro msg h
    simp only [catchRoutes, catchStorageRoute, h, Bool.false_eq_true, if_false]
    split <;> rfl
  · intro msg
    rfl
  · intro st now code lang mc e hadm hvalid hmc
    unfold analyze analyzeAfterGate analyzeCodeSchemaParse
    rw [if_neg (not_lt.mpr hadm), if_neg hvalid]
    simp only [storageFindByCode, hmc, Bool.not_true]
    rfl

/-- C7 witness: a quota message through the pipeline yields 429, and a
plain transport message yields 500. -/
theorem C7_amended_witness :
    ((analyze initialServerState 5000 "x" "js" true
        (fun _ => .error "quota exhausted for project")).response
      = .err 429 "API quota exceeded. Try again later.") ∧
    ((analyze initialServerState 5000 "x" "js" true
        (fun _ => .error "socket hang up")).response
      = .err 500 "Failed to analyze code. Please try again.") := by
  constructor
  · have h := C7_amended.2.2.2.2.2 initialServerState 5000 "x" "js"
      (fun _ => .error "quota exhausted for project") "quota exhausted for project"
      (by decide) (by simp) rfl
    rw [h]
    rfl
  · have h := C7_amended.2.2.2.2.2 initialServerState 5000 "x" "js"
      (fun _ => .error "socket hang up") "socket hang up"
      (by decide) (by simp) rfl
    rw [h]
    rfl

/-- C8: once a request is admitted, the rate-gate mark keeps the value
stamped at admission whatever happens afterwards (validation failure,
missing credential, provider failure, success): it is never rolled
back, so a follow-up inside the cooldown window is still answered 429. -/
theorem C8_mark_not_rolled_back (st : ServerState) (now : Int) (code lang : String)
    (key : Bool) (mc : String → Except String String)
    (hadm : RATE_LIMIT_MS ≤ now - st.lastAnalysisAt) :
    ((analyze st now code lang key mc).state.lastAnalysisAt = now) ∧
    (∀ (t2 : Int) (c2 l2 : String) (k2 : Bool) (m2 : String → Except String String),
      t2 - now < RATE_LIMIT_MS →
      (analyze (analyze st now code lang key mc).state t2 c2 l2 k2 m2).response.status = 429) := by
  have hmark := analyze_lastAnalysisAt_admitted st now code lang key mc hadm
  refine ⟨hmark, ?_⟩
  intro t2 c2 l2 k2 m2 hsoon
  have h := analyze_gate_rejected (analyze st now code lang key mc).state t2 c2 l2 k2 m2
    (by rw [hmark]; exact hsoon)
  rw [h]
  rfl

/-- C8 witness: a request that fails validation (empty code) at t=5000
still consumes the window; a follow-up at t=7000 is answered 429. -/
theorem C8_mark_not_rolled_back_witness :
    ((analyze initialServerState 5000 "" "js" true (fun _ => .ok "r")).state.lastAnalysisAt
      = 5000) ∧
    ((analyze (analyze initialServerState 5000 "" "js" true (fun _ => .ok "r")).state
        7000 "y" "js" true (fun _ => .ok "r")).response.status = 429) := by
  have h := C8_mark_not_rolled_back initialServerState 5000 "" "js" true
    (fun _ => .ok "r") (by decide)
  exact ⟨h.1, h.2 7000 "y" "js" true (fun _ => .ok "r") (by decide)⟩

/-- C9: the line count carried by a 200 response is a function of the
code alone: two successful runs on the same code with different
language tags (and any states, clocks, credentials and model
behaviours) report the same `linesOfCode`, namely `countLinesOfCode`. -/
theorem C9_language_noninterference (st1 st2 : ServerState) (n1 n2 : Int)
    (code l1 l2 : String) (k1 k2 : Bool) (m1 m2 : String → Except String String)
    (r1 r2 : AnalysisResult)
    (h1 : (analyze st1 n1 code l1 k1 m1).response = .ok r1)
    (h2 : (analyze st2 n2 code l2 k2 m2).response = .ok r2) :
    r1.linesOfCode = r2.linesOfCode ∧ r1.linesOfCode = countLinesOfCode code := by
  have e1 := analyze_ok_linesOfCode st1 n1 code l1 k1 m1 r1 h1
  have e2 := analyze_ok_linesOfCode st2 n2 code l2 k2 m2 r2 h2
  exact ⟨e1.trans e2.symm, e1⟩

/-- C9 witness: same two-line code analyzed as python and as javascript
reports 2 lines both times. -/
theorem C9_language_noninterference_witness :
    (analyze initialServerState 4000 "x=1\ny=2" "python" true
        (fun _ => .ok "Time Complexity: O(1)\nSpace Complexity: O(1)\nExplanation: fine")).response
      = .ok { linesOfCode := 2, timeComplexity := "O(1)", spaceComplexity := "O(1)"
              explanation := some "fine" } ∧
    ({ linesOfCode := 2, timeComplexity := "O(1)", spaceComplexity := "O(1)"
       explanation := some "fine" : AnalysisResult }).linesOfCode
      = ({ linesOfCode := 2, timeComplexity := "O(1)", spaceComplexity := "O(1)"
           explanation := some "fine" : AnalysisResult }).linesOfCode ∧
    ({ linesOfCode := 2, timeComplexity := "O(1)", spaceComplexity := "O(1)"
       explanation := some "fine" : AnalysisResult }).linesOfCode
      = countLinesOfCode "x=1\ny=2" := by
  refine ⟨rfl, ?_, ?_⟩
  · exact (C9_language_noninterference initialServerState initialServerState 4000 4000
      "x=1\ny=2" "python" "javascript" true true
      (fun _ => .ok "Time Complexity: O(1)\nSpace Complexity: O(1)\nExplanation: fine")
      (fun _ => .ok "Time Complexity: O(1)\nSpace Complexity: O(1)\nExplanation: fine")
      _ _ rfl rfl).1
  · exact (C9_language_noninterference initialServerState initialServerState 4000 4000
      "x=1\ny=2" "python" "javascript" true true
      (fun _ => .ok "Time Complexity: O(1)\nSpace Complexity: O(1)\nExplanation: fine")
      (fun _ => .ok "Time Complexity: O(1)\nSpace Complexity: O(1)\nExplanation: fine")
      _ _ rfl rfl).2

/-- C10: `createAnalysis` stores every supplied field unchanged, adds
the next id and the insertion-time stamp, and nulls the explanation
exactly when it is absent or empty. -/
theorem C10_createAnalysis (s : MemStorage) (ins : InsertAnalysis) (t : Int) :
    ((s.createAnalysis ins t).1.code = ins.code) ∧
    ((s.createAnalysis ins t).1.language = ins.language) ∧
    ((s.createAnalysis ins t).1.linesOfCode = ins.linesOfCode) ∧
    ((s.createAnalysis ins t).1.timeComplexity = ins.timeComplexity) ∧
    ((s.createAnalysis ins t).1.spaceComplexity = ins.spaceComplexity) ∧
    ((s.createAnalysis ins t).1.id = s.currentId) ∧
    ((s.createAnalysis ins t).1.createdAt = t) ∧
    ((s.createAnalysis ins t).1.explanation =
      if ins.explanation = none ∨ ins.explanation = some "" then none else ins.explanation) ∧
    ((s.createAnalysis ins t).2.analyses = s.analyses ++ [(s.createAnalysis ins t).1]) ∧
    ((s.createAnalysis ins t).2.currentId = s.currentId + 1) := by
  refine ⟨rfl, rfl, rfl, rfl, rfl, rfl, rfl, ?_, rfl, rfl⟩
  rcases h : ins.explanation with _ | e
  · simp [MemStorage.createAnalysis, h]
  · by_cases he : e = "" <;> simp [MemStorage.createAnalysis, h, he]
